import Mathlib

/-!
Verification of the convex-backend-ops lifecycle orchestrator.

This file gives a shallow embedding of the Go source of the
convex-backend-ops tool (cmd/upgrade.go, cmd/reset.go and the install,
status, rollback, list-backups and uninstall commands) and proves
properties of the backup, upgrade, rollback and retention logic.

Modelling conventions:
- Opaque file and directory contents (the backend binary, the data
  directory) are values of type Blob; copying a file or a directory tree
  assigns the source blob to the destination.
- JSON files are modelled by the FileData type; json.Unmarshal into a
  Manifest or a BackupMeta is modelled by a function returning an Option,
  which is none exactly when the Go call returns an error.
- RFC3339 timestamp strings are modelled by TimeStr: a constructor for
  well-formed stamps carrying the denoted instant as a Nat, and a
  constructor for malformed text; time.Parse is the evident Option.
- Operating-system and supervisor calls that can fail (systemctl, file
  copies, chmod, mkdir) take their outcome from an Env record of
  oracles, one per call site, which also injects I/O faults. A copy in
  addition fails structurally when its source file is absent.
- Each command is a function from a SysState (the on-disk state rooted
  at /var/lib/convex plus the installed binary and the service state)
  and an Env to a RunResult: the new state, a trace of the external
  actions attempted, and an optional error message.
-/

namespace ConvexOps

/-- Opaque content of a file or of a whole directory tree. -/
abbrev Blob := String

/-- An RFC3339 timestamp string: either well formed, denoting instant t,
or malformed text. -/
inductive TimeStr where
  | rfc3339 (t : Nat)
  | malformed (s : String)
deriving DecidableEq

/-- Model of time.Parse with the RFC3339 layout: succeeds exactly on
well-formed stamps. -/
def parseRFC3339 : TimeStr → Option Nat
  | .rfc3339 t => some t
  | .malformed _ => none

/-- InstallationManifest, as in the Manifest struct of the source. -/
structure Manifest where
  name : String
  version : String
  apps : List String
  platform : String
  createdAt : String
deriving DecidableEq

/-- BackupMeta, the meta.json record of a backup (cmd/upgrade.go). -/
structure BackupMeta where
  version : String
  timestamp : TimeStr
  reason : String
  fromVersion : String
  toVersion : String
deriving DecidableEq

/-- Content of a JSON file on disk: a manifest document, a backup
metadata document, or bytes that fail to unmarshal as either. -/
inductive FileData where
  | manifestJson (m : Manifest)
  | metaJson (m : BackupMeta)
  | raw (s : String)
deriving DecidableEq

/-- json.Unmarshal into a Manifest. -/
def unmarshalManifest : FileData → Option Manifest
  | .manifestJson m => some m
  | _ => none

/-- json.Unmarshal into a BackupMeta. -/
def unmarshalMeta : FileData → Option BackupMeta
  | .metaJson m => some m
  | _ => none

/-- One backup directory under /var/lib/convex/backups: the four members
convex-backend, data, manifest.json and meta.json, each possibly absent
(a torn backup lacks some of them). -/
structure BackupDir where
  binaryFile : Option Blob
  dataDir : Option Blob
  manifestFile : Option FileData
  metaFile : Option FileData
deriving DecidableEq

/-- A directory entry of the backups root: a plain file or a
subdirectory. -/
inductive FsNode where
  | file (content : FileData)
  | dir (d : BackupDir)
deriving DecidableEq

/-- Model of entry.IsDir() on a backups-root entry. -/
def FsNode.isDir : FsNode → Bool
  | .file _ => false
  | .dir _ => true

/-- Contents of the backups root as a named-entry list, in os.ReadDir
order. -/
abbrev Entries := List (String × FsNode)

/-- Lookup of an entry of the backups root by name (os.Stat on the
subpath). -/
def lookupEntry (es : Entries) (n : String) : Option FsNode :=
  match es.find? (fun e => e.1 == n) with
  | some e => some e.2
  | none => none

/-- Create or replace the entry of the given name (directory-entry
names are unique in a real filesystem, so replacing the first match is
the write-to-subpath semantics). -/
def setEntry (es : Entries) (n : String) (v : FsNode) : Entries :=
  match es with
  | [] => [(n, v)]
  | e :: rest => if e.1 == n then (n, v) :: rest else e :: setEntry rest n v

/-- Whole on-disk and service state the orchestrator acts on. -/
structure SysState where
  binaryFile : Option Blob
  dataDir : Option Blob
  manifestFile : Option FileData
  backups : Option Entries
  serviceRunning : Bool
deriving DecidableEq

/-- Outcome oracles for the external calls of one invocation, one field
per call site; false injects the corresponding failure. The now field is
the clock read when writing backup metadata, and retentionEnv is the
CONVEX_BACKUP_RETENTION environment value (none when unset). -/
structure Env where
  isRoot : Bool
  hasSystemd : Bool
  now : Nat
  retentionEnv : Option String
  mkBackupDirOk : Bool
  backupBinaryOk : Bool
  backupDataOk : Bool
  backupManifestOk : Bool
  backupMetaOk : Bool
  stopOk : Bool
  swapBinaryOk : Bool
  swapChmodOk : Bool
  swapManifestOk : Bool
  startOk : Bool
  healthOk : Bool
  failStopOk : Bool
  rbBinaryOk : Bool
  rbChmodOk : Bool
  rbRemoveDataOk : Bool
  rbDataOk : Bool
  rbManifestOk : Bool
  rbStartOk : Bool
deriving DecidableEq

/-- Environment with every external call succeeding. -/
def Env.allOk : Env :=
  ⟨true, true, 0, none, true, true, true, true, true, true, true, true,
   true, true, true, true, true, true, true, true, true, true⟩

/-- External actions a command attempts, recorded in order. -/
inductive Action where
  | createBackup
  | stopService
  | swap
  | startService
  | healthCheck
  | rollback
  | restore
  | prune
deriving DecidableEq

/-- Result of one command invocation: final state, trace of attempted
external actions, and the error returned (none on success). -/
structure RunResult where
  state : SysState
  trace : List Action
  err : Option String
deriving DecidableEq

/-- Model of strconv.Atoi digit accumulation. -/
def digitsToNat (cs : List Char) : Option Nat :=
  cs.foldl
    (fun acc c =>
      acc.bind (fun n => if c.isDigit then some (n * 10 + (c.toNat - 48)) else none))
    (some 0)

/-- Model of strconv.Atoi: optional sign then decimal digits; empty
input or stray characters give an error. -/
def atoi (s : String) : Option Int :=
  match s.toList with
  | [] => none
  | '+' :: cs => if cs.isEmpty then none else (digitsToNat cs).map Int.ofNat
  | '-' :: cs => if cs.isEmpty then none else (digitsToNat cs).map (fun n => -(n : Int))
  | cs => (digitsToNat cs).map Int.ofNat

/-- Retention count used by pruneBackups (cmd/upgrade.go lines 234-240):
default 3, overridden by CONVEX_BACKUP_RETENTION only when it parses to
a positive number. -/
def retentionCount (envVal : Option String) : Nat :=
  match envVal with
  | none => 3
  | some ev =>
    if ev = "" then 3
    else
      match atoi ev with
      | some r => if 0 < r then r.toNat else 3
      | none => 3

/-- Timestamp of a valid backup entry (cmd/upgrade.go lines 255-274):
the entry must be a directory whose meta.json reads, unmarshals, and
carries a parsable RFC3339 timestamp; none otherwise. -/
def backupTimestamp (node : FsNode) : Option Nat :=
  match node with
  | .file _ => none
  | .dir d =>
    match d.metaFile with
    | none => none
    | some f =>
      match unmarshalMeta f with
      | none => none
      | some m => parseRFC3339 m.timestamp

/-- Name and parsed timestamp of a valid backup, as gathered by
pruneBackups. -/
structure PruneItem where
  name : String
  timestamp : Nat
deriving DecidableEq

/-- Valid backups of the backups root, in directory order. -/
def collectBackups (root : Entries) : List PruneItem :=
  root.filterMap (fun en => (backupTimestamp en.2).map (fun ts => ⟨en.1, ts⟩))

/-- Newest-first order on backups, as in the sort.Slice comparator
timestamp.After of the source (ties resolved arbitrarily there; here by
list position). -/
def tsDescOrder (a b : PruneItem) : Prop := b.timestamp ≤ a.timestamp

instance : DecidableRel tsDescOrder :=
  fun a b => inferInstanceAs (Decidable (b.timestamp ≤ a.timestamp))

instance : IsTotal PruneItem tsDescOrder :=
  ⟨fun a b => Nat.le_total b.timestamp a.timestamp⟩

instance : IsTrans PruneItem tsDescOrder :=
  ⟨fun _ _ _ hab hbc => le_trans hbc hab⟩

/-- Sort valid backups newest first. -/
def sortNewestFirst (items : List PruneItem) : List PruneItem :=
  List.insertionSort tsDescOrder items

/-- Backups selected for deletion by pruning: every valid backup beyond
index retention in the newest-first order. -/
def pruneSelect (root : Entries) (retention : Nat) : List PruneItem :=
  (sortNewestFirst (collectBackups root)).drop retention

/-- pruneBackups (cmd/upgrade.go lines 233-291): read the backups root,
gather the valid backups with their timestamps, sort newest first, and
remove every one beyond the retention index. Errors reading the root or
removing a directory are ignored in the source. -/
def pruneBackups (s : SysState) (e : Env) : SysState :=
  match s.backups with
  | none => s
  | some root =>
    let toDelete := pruneSelect root (retentionCount e.retentionEnv)
    { s with
      backups := some (root.filter (fun en => !(toDelete.any (fun d => d.name == en.1)))) }

/-- An input bundle directory: backend binary, convex.db, optional
storage subtree, manifest.json and credentials.json, each member
possibly absent. Bundles are read-only inputs. -/
structure Bundle where
  backend : Option Blob
  convexDb : Option Blob
  storage : Option Blob
  manifestFile : Option FileData
  credentials : Option FileData
deriving DecidableEq

/-- readManifest of the source: read the file then unmarshal; an error
results when the file is absent or does not unmarshal as a Manifest. -/
def readManifest : Option FileData → Option Manifest
  | none => none
  | some f => unmarshalManifest f

/-- validateBundle: os.Stat each required member of the bundle, in the
order of the requiredFiles slice of the source. -/
def validateBundle (b : Bundle) : Option String :=
  if b.backend.isNone then some "missing required file: backend"
  else if b.convexDb.isNone then some "missing required file: convex.db"
  else if b.manifestFile.isNone then some "missing required file: manifest.json"
  else if b.credentials.isNone then some "missing required file: credentials.json"
  else none

/-- A backup directory with no members yet. -/
def emptyBackupDir : BackupDir := ⟨none, none, none, none⟩

/-- createBackup (cmd/upgrade.go lines 139-179): MkdirAll the backup
directory, copy the installed binary, the data directory and the
manifest into it, then write meta.json last. Each step can fail by
fault injection, and a copy also fails when its source is absent; the
effects of completed steps persist on failure. The directory is named
v plus the version being superseded and an existing directory of that
name is reused and overwritten member by member. -/
def createBackup (s : SysState) (e : Env) (fromV toV : String) :
    SysState × Option String :=
  let name := "v" ++ fromV
  let root := s.backups.getD []
  if !e.mkBackupDirOk then (s, some "failed to create backup directory")
  else
    match lookupEntry root name with
    | some (.file _) => (s, some "failed to create backup directory")
    | prior =>
      let d0 := match prior with
        | some (.dir d) => d
        | _ => emptyBackupDir
      let s1 := { s with backups := some (setEntry root name (.dir d0)) }
      if !e.backupBinaryOk then (s1, some "failed to backup binary")
      else
        match s.binaryFile with
        | none => (s1, some "failed to backup binary")
        | some bin =>
          let d1 := { d0 with binaryFile := some bin }
          let s2 := { s with backups := some (setEntry root name (.dir d1)) }
          if !e.backupDataOk then (s2, some "failed to backup data")
          else
            match s.dataDir with
            | none => (s2, some "failed to backup data")
            | some dat =>
              let d2 := { d1 with dataDir := some dat }
              let s3 := { s with backups := some (setEntry root name (.dir d2)) }
              if !e.backupManifestOk then (s3, some "failed to backup manifest")
              else
                match s.manifestFile with
                | none => (s3, some "failed to backup manifest")
                | some mf =>
                  let d3 := { d2 with manifestFile := some mf }
                  let s4 := { s with backups := some (setEntry root name (.dir d3)) }
                  if !e.backupMetaOk then (s4, some "failed to write meta.json")
                  else
                    let meta : BackupMeta :=
                      ⟨fromV, .rfc3339 e.now, "upgrade", fromV, toV⟩
                    let d4 := { d3 with metaFile := some (.metaJson meta) }
                    ({ s with backups := some (setEntry root name (.dir d4)) }, none)

/-- installNewVersion (cmd/upgrade.go lines 181-199): copy the bundle
binary over the installed binary, chmod it, and copy the bundle
manifest over the installed manifest. The data directory is not
touched. -/
def installNewVersion (s : SysState) (e : Env) (bundle : Bundle) :
    SysState × Option String :=
  if !e.swapBinaryOk then (s, some "failed to copy new binary")
  else
    match bundle.backend with
    | none => (s, some "failed to copy new binary")
    | some b =>
      let s1 := { s with binaryFile := some b }
      if !e.swapChmodOk then (s1, some "failed to set binary permissions")
      else if !e.swapManifestOk then (s1, some "failed to copy new manifest")
      else
        match bundle.manifestFile with
        | none => (s1, some "failed to copy new manifest")
        | some mf => ({ s1 with manifestFile := some mf }, none)

/-- Backup directory read back from a path under the backups root;
reading members of an absent or non-directory path behaves like an
empty directory, every member copy failing. -/
def readBackupDir (s : SysState) (name : String) : BackupDir :=
  match s.backups with
  | none => emptyBackupDir
  | some root =>
    match lookupEntry root name with
    | some (.dir d) => d
    | _ => emptyBackupDir

/-- performRollback (cmd/upgrade.go lines 201-231): restore the binary,
chmod it, remove the data directory wholesale and copy the backup data
back, restore the manifest, then start the service. -/
def performRollback (s : SysState) (e : Env) (name : String) :
    SysState × Option String :=
  let bdir := readBackupDir s name
  if !e.rbBinaryOk then (s, some "failed to restore binary")
  else
    match bdir.binaryFile with
    | none => (s, some "failed to restore binary")
    | some b =>
      let s1 := { s with binaryFile := some b }
      if !e.rbChmodOk then (s1, some "failed to set binary permissions")
      else if !e.rbRemoveDataOk then (s1, some "failed to remove current data")
      else
        let s2 := { s1 with dataDir := none }
        if !e.rbDataOk then (s2, some "failed to restore data")
        else
          match bdir.dataDir with
          | none => (s2, some "failed to restore data")
          | some dat =>
            let s3 := { s2 with dataDir := some dat }
            if !e.rbManifestOk then (s3, some "failed to restore manifest")
            else
              match bdir.manifestFile with
              | none => (s3, some "failed to restore manifest")
              | some mf =>
                let s4 := { s3 with manifestFile := some mf }
                if !e.rbStartOk then (s4, some "failed to start service after rollback")
                else ({ s4 with serviceRunning := true }, none)

/-- restoreFromBackup of the rollback command: identical member-restore
sequence to performRollback but without the final service start, which
the rollback command performs separately. -/
def restoreFromBackup (s : SysState) (e : Env) (name : String) :
    SysState × Option String :=
  let bdir := readBackupDir s name
  if !e.rbBinaryOk then (s, some "failed to restore binary")
  else
    match bdir.binaryFile with
    | none => (s, some "failed to restore binary")
    | some b =>
      let s1 := { s with binaryFile := some b }
      if !e.rbChmodOk then (s1, some "failed to set binary permissions")
      else if !e.rbRemoveDataOk then (s1, some "failed to remove current data")
      else
        let s2 := { s1 with dataDir := none }
        if !e.rbDataOk then (s2, some "failed to restore data")
        else
          match bdir.dataDir with
          | none => (s2, some "failed to restore data")
          | some dat =>
            let s3 := { s2 with dataDir := some dat }
            if !e.rbManifestOk then (s3, some "failed to restore manifest")
            else
              match bdir.manifestFile with
              | none => (s3, some "failed to restore manifest")
              | some mf => ({ s3 with manifestFile := some mf }, none)

/-- Outcome of the pre-flight portion of runUpgrade. -/
inductive GateResult where
  | fail (msg : String)
  | go (cur newM : Manifest)
deriving DecidableEq

/-- Pre-flight checks and version gate of runUpgrade (cmd/upgrade.go
lines 44-76): root check, systemd check, read of the installed
manifest, bundle validation, read of the new manifest, and the
same-version-without-force gate. No side effect occurs here. -/
def upgradeGate (s : SysState) (e : Env) (bundle : Bundle) (force : Bool) :
    GateResult :=
  if !e.isRoot then .fail "this command must be run as root"
  else if !e.hasSystemd then .fail "systemd is required but not found"
  else
    match readManifest s.manifestFile with
    | none => .fail "Convex backend is not installed. Use install first"
    | some cur =>
      match validateBundle bundle with
      | some msg => .fail ("invalid bundle: " ++ msg)
      | none =>
        match readManifest bundle.manifestFile with
        | none => .fail "failed to read new manifest"
        | some newM =>
          if cur.version == newM.version && !force then
            .fail ("already at version " ++ cur.version ++ ". Use --force to upgrade anyway")
          else .go cur newM

/-- runUpgrade (cmd/upgrade.go lines 44-137): after the gate, create a
backup of the current state, stop the service, swap in the new binary
and manifest, start the service, run the health gate, and prune old
backups only after everything succeeded. Failures of the swap, of the
start and of the health check call performRollback; a failure creating
the backup or stopping the service returns directly. The health-check
failure path first stops the service best-effort, ignoring the outcome
of that stop. -/
def runUpgrade (s : SysState) (e : Env) (bundle : Bundle) (force : Bool) :
    RunResult :=
  match upgradeGate s e bundle force with
  | .fail msg => ⟨s, [], some msg⟩
  | .go cur newM =>
    let backupName := "v" ++ cur.version
    match createBackup s e cur.version newM.version with
    | (s1, some msg) => ⟨s1, [.createBackup], some ("failed to create backup: " ++ msg)⟩
    | (s1, none) =>
      if !e.stopOk then ⟨s1, [.createBackup, .stopService], some "failed to stop service"⟩
      else
        let s2 := { s1 with serviceRunning := false }
        match installNewVersion s2 e bundle with
        | (s3, some _) =>
          match performRollback s3 e backupName with
          | (s4, some rbMsg) =>
            ⟨s4, [.createBackup, .stopService, .swap, .rollback],
             some ("rollback also failed: " ++ rbMsg)⟩
          | (s4, none) =>
            ⟨s4, [.createBackup, .stopService, .swap, .rollback],
             some ("upgrade failed, rolled back to v" ++ cur.version)⟩
        | (s3, none) =>
          if !e.startOk then
            match performRollback s3 e backupName with
            | (s4, some rbMsg) =>
              ⟨s4, [.createBackup, .stopService, .swap, .startService, .rollback],
               some ("rollback also failed: " ++ rbMsg)⟩
            | (s4, none) =>
              ⟨s4, [.createBackup, .stopService, .swap, .startService, .rollback],
               some ("service failed to start, rolled back to v" ++ cur.version)⟩
          else
            let s4 := { s3 with serviceRunning := true }
            if !e.healthOk then
              let s5 := if e.failStopOk then { s4 with serviceRunning := false } else s4
              match performRollback s5 e backupName with
              | (s6, some rbMsg) =>
                ⟨s6, [.createBackup, .stopService, .swap, .startService, .healthCheck,
                      .stopService, .rollback],
                 some ("rollback also failed: " ++ rbMsg)⟩
              | (s6, none) =>
                ⟨s6, [.createBackup, .stopService, .swap, .startService, .healthCheck,
                      .stopService, .rollback],
                 some ("health check failed, rolled back to v" ++ cur.version)⟩
            else
              ⟨pruneBackups s4 e,
               [.createBackup, .stopService, .swap, .startService, .healthCheck, .prune],
               none⟩

/-- A backup found by findMostRecentBackup: its directory name, the
version recorded in its metadata, and its parsed timestamp. -/
structure FoundBackup where
  name : String
  version : String
  timestamp : Nat
deriving DecidableEq

/-- Newest-first order on found backups. -/
def fbDescOrder (a b : FoundBackup) : Prop := b.timestamp ≤ a.timestamp

instance : DecidableRel fbDescOrder :=
  fun a b => inferInstanceAs (Decidable (b.timestamp ≤ a.timestamp))

instance : IsTotal FoundBackup fbDescOrder :=
  ⟨fun a b => Nat.le_total b.timestamp a.timestamp⟩

instance : IsTrans FoundBackup fbDescOrder :=
  ⟨fun _ _ _ hab hbc => le_trans hbc hab⟩

/-- Valid backups as gathered by findMostRecentBackup: directory
entries whose meta.json reads, unmarshals and has a parsable RFC3339
timestamp. -/
def collectFoundBackups (root : Entries) : List FoundBackup :=
  root.filterMap (fun en =>
    match en.2 with
    | .file _ => none
    | .dir d =>
      match d.metaFile with
      | none => none
      | some f =>
        match unmarshalMeta f with
        | none => none
        | some m => (parseRFC3339 m.timestamp).map (fun ts => ⟨en.1, m.version, ts⟩))

/-- findMostRecentBackup of the rollback command: list the backups
root, keep entries with valid metadata, sort newest first, and return
the first; none when the root is unreadable or no valid backup exists
(both reported as no backups found in the source). -/
def findMostRecentBackup (s : SysState) : Option FoundBackup :=
  match s.backups with
  | none => none
  | some root =>
    match List.insertionSort fbDescOrder (collectFoundBackups root) with
    | [] => none
    | x :: _ => some x

/-- Tail of runRollback once a backup directory has been chosen: stop
the service best-effort ignoring the outcome, restore from the backup,
start the service, and health-gate. -/
def rollbackFrom (s : SysState) (e : Env) (name : String) : RunResult :=
  let s1 := if e.stopOk then { s with serviceRunning := false } else s
  match restoreFromBackup s1 e name with
  | (s2, some msg) =>
    ⟨s2, [.stopService, .restore], some ("failed to restore from backup: " ++ msg)⟩
  | (s2, none) =>
    if !e.startOk then
      ⟨s2, [.stopService, .restore, .startService], some "failed to start service"⟩
    else
      let s3 := { s2 with serviceRunning := true }
      if !e.healthOk then
        ⟨s3, [.stopService, .restore, .startService, .healthCheck],
         some "health check failed after rollback"⟩
      else
        ⟨s3, [.stopService, .restore, .startService, .healthCheck], none⟩

/-- runRollback: root and systemd checks, then backup resolution. With
an explicit version argument only os.Stat of the directory named v plus
the version is consulted; without one, findMostRecentBackup resolves
the newest valid backup. Resolution failure returns before any external
action. -/
def runRollback (s : SysState) (e : Env) (arg : Option String) : RunResult :=
  if !e.isRoot then ⟨s, [], some "this command must be run as root"⟩
  else if !e.hasSystemd then ⟨s, [], some "systemd is required but not found"⟩
  else
    match arg with
    | some ver =>
      match s.backups.bind (fun root => lookupEntry root ("v" ++ ver)) with
      | none => ⟨s, [], some ("backup for version " ++ ver ++ " not found")⟩
      | some _ => rollbackFrom s e ("v" ++ ver)
    | none =>
      match findMostRecentBackup s with
      | none => ⟨s, [], some "no backups found"⟩
      | some fb => rollbackFrom s e fb.name

/-- Sleep interval of the waitForHealth poll loop, in seconds
(time.Sleep of 1 second in the source). -/
def pollIntervalSec : Nat := 1

/-- Per-probe timeout of the waitForHealth HTTP client, in seconds
(http.Client Timeout of 2 seconds in the source). -/
def probeTimeoutSec : Nat := 2

/-- Overall budget passed to waitForHealth by install, upgrade and
rollback, in seconds. -/
def healthGateTimeoutSec : Nat := 30

/-- Poll loop of waitForHealth: probe at elapsed time t; on failure
sleep one interval and retry while the deadline has not passed. The
fuel counts the remaining full intervals before the deadline; probe
durations are abstracted away. healthAt gives the probe outcome at each
elapsed second. -/
def waitLoop (healthAt : Nat → Bool) : Nat → Nat → Bool
  | _, 0 => false
  | t, fuel + 1 => if healthAt t then true else waitLoop healthAt (t + pollIntervalSec) fuel

/-- waitForHealth: poll from elapsed time zero until a probe succeeds
or the overall timeout elapses. -/
def waitForHealth (healthAt : Nat → Bool) (timeoutSec : Nat) : Bool :=
  waitLoop healthAt 0 timeoutSec

/-- Installed flag computed by runStatus: true only when the manifest
file both reads and unmarshals. -/
def statusInstalled (s : SysState) : Bool :=
  (readManifest s.manifestFile).isSome

/-- Presence of the manifest file at its well-known path, the os.Stat
check used by install and reset. -/
def manifestFileExists (s : SysState) : Bool :=
  s.manifestFile.isSome

/-- checkNotInstalled of the install command: error when the manifest
file is present, regardless of its contents. -/
def checkNotInstalled (s : SysState) : Option String :=
  if s.manifestFile.isSome then
    some "Convex backend is already installed. Use upgrade to update"
  else none

/-- Installed gate of the reset command: error when the manifest file
is absent, regardless of contents when present. -/
def resetInstalledGate (s : SysState) : Option String :=
  if s.manifestFile.isSome then none
  else some "Convex backend is not installed"

/-- One row of the list-backups output. -/
structure BackupInfo where
  version : String
  created : TimeStr
  reason : String
deriving DecidableEq

/-- Rows gathered by runListBackups, in directory order: directory
entries whose meta.json reads and unmarshals; the timestamp is not
required to parse here. -/
def collectListRows (root : Entries) : List BackupInfo :=
  root.filterMap (fun en =>
    match en.2 with
    | .file _ => none
    | .dir d =>
      match d.metaFile with
      | none => none
      | some f =>
        (unmarshalMeta f).map (fun m => ⟨m.version, m.timestamp, m.reason⟩))

/-- Sort order of the list-backups output: newest first by parsed
timestamp, an unparsable timestamp comparing as instant zero, as the
ignored time.Parse error of the source leaves the zero time. -/
def rowDescOrder (a b : BackupInfo) : Prop :=
  (parseRFC3339 b.created).getD 0 ≤ (parseRFC3339 a.created).getD 0

instance : DecidableRel rowDescOrder :=
  fun a b =>
    inferInstanceAs (Decidable ((parseRFC3339 b.created).getD 0 ≤ (parseRFC3339 a.created).getD 0))

/-- runListBackups (rows of the output): an unreadable backups root
lists nothing, otherwise the gathered rows sorted newest first. -/
def runListBackups (s : SysState) : List BackupInfo :=
  match s.backups with
  | none => []
  | some root => List.insertionSort rowDescOrder (collectListRows root)

/-- Teardown of runUninstall after confirmation: stop and disable the
service best-effort, remove the binary and the service unit, and remove
the /var/lib/convex and /etc/convex trees wholesale, taking the
manifest, the data directory and every backup with them. -/
def uninstallTeardown (s : SysState) (e : Env) : SysState :=
  let s1 := if e.stopOk then { s with serviceRunning := false } else s
  { s1 with binaryFile := none, dataDir := none, manifestFile := none, backups := none }

/-!
Concrete fixtures used by witnesses and counterexamples below: an
installed state at version 1.0.0, bundles at versions 2.0.0 and 1.0.0,
a state with a corrupt manifest, a state with a torn backup directory,
a state with a preexisting backup directory for the current version,
and a backups root mixing valid, torn and non-directory entries.
-/

/-- Installed manifest fixture, version 1.0.0. -/
def mCur : Manifest := ⟨"Backend", "1.0.0", [], "linux-x64", "t0"⟩

/-- Bundle manifest fixture, version 2.0.0. -/
def mNew : Manifest := ⟨"Backend", "2.0.0", [], "linux-x64", "t1"⟩

/-- A complete bundle at version 2.0.0. -/
def bundleNew : Bundle :=
  ⟨some "binB", some "dbB", none, some (.manifestJson mNew), some (.raw "creds")⟩

/-- A complete bundle at the installed version 1.0.0. -/
def bundleSame : Bundle :=
  ⟨some "binB", some "dbB", none, some (.manifestJson mCur), some (.raw "creds")⟩

/-- Installed state at version 1.0.0 with an empty backups root and the
service running. -/
def sInst : SysState :=
  ⟨some "binA", some "dataA", some (.manifestJson mCur), some [], true⟩

/-- State whose manifest file exists but holds bytes that do not
unmarshal as a Manifest. -/
def sCorrupt : SysState :=
  ⟨some "binA", some "dataA", some (.raw "garbage"), some [], true⟩

/-- State with a single torn backup directory lacking all four members. -/
def sTorn : SysState :=
  { sInst with backups := some [("v1.0.0", .dir emptyBackupDir)] }

/-- A fully-written backup directory for version 1.0.0 taken at
instant 5. -/
def oldBackup : BackupDir :=
  ⟨some "oldbin", some "olddata", some (.manifestJson mCur),
   some (.metaJson ⟨"1.0.0", .rfc3339 5, "upgrade", "1.0.0", "1.0.0"⟩)⟩

/-- Installed state at version 1.0.0 that already has a backup
directory named v1.0.0. -/
def sWithBackup : SysState :=
  ⟨some "binA", some "dataA", some (.manifestJson mCur),
   some [("v1.0.0", .dir oldBackup)], true⟩

/-- A fully-written backup directory with the given source version and
timestamp. -/
def validBackupAt (v : String) (ts : Nat) : BackupDir :=
  ⟨some ("bin" ++ v), some ("data" ++ v), some (.manifestJson mCur),
   some (.metaJson ⟨v, .rfc3339 ts, "upgrade", v, "x"⟩)⟩

/-- A backups root with five valid backups at timestamps 10 to 50, one
plain file and one torn directory. -/
def root5 : Entries :=
  [("v1", .dir (validBackupAt "1" 10)),
   ("v2", .dir (validBackupAt "2" 20)),
   ("junk", .file (.raw "x")),
   ("torn", .dir ⟨some "b", none, none, none⟩),
   ("v3", .dir (validBackupAt "3" 30)),
   ("v4", .dir (validBackupAt "4" 40)),
   ("v5", .dir (validBackupAt "5" 50))]

/-- State holding the root5 backups root. -/
def sRoot5 : SysState :=
  ⟨some "binA", some "dataA", some (.manifestJson mCur), some root5, true⟩

/-- Environment where stopping the service fails. -/
def envStopFail : Env := { Env.allOk with stopOk := false }

/-- Environment where the health gate fails. -/
def envHealthFail : Env := { Env.allOk with healthOk := false }

/-- Environment with the clock at instant 99. -/
def envNow99 : Env := { Env.allOk with now := 99 }

/-!
Helper lemmas about the entry store, the backup store and the step
functions, shared by the claim theorems below.
-/

theorem lookupEntry_setEntry_self (es : Entries) (n : String) (v : FsNode) :
    lookupEntry (setEntry es n v) n = some v := by
  induction es with
  | nil => simp [setEntry, lookupEntry, List.find?]
  | cons e rest ih =>
    by_cases h : e.1 = n
    · simp [setEntry, lookupEntry, List.find?, h]
    · have hb : (e.1 == n) = false := by simp [h]
      simp only [setEntry, hb, if_false]
      simpa [lookupEntry, List.find?, hb] using ih

theorem lookupEntry_setEntry_ne (es : Entries) (n m : String) (v : FsNode)
    (hnm : m ≠ n) :
    lookupEntry (setEntry es n v) m = lookupEntry es m := by
  induction es with
  | nil =>
    have hb : (n == m) = false := by simp [Ne.symm hnm]
    simp [setEntry, lookupEntry, List.find?, hb]
  | cons e rest ih =>
    by_cases h : e.1 = n
    · have hb : (n == m) = false := by simp [Ne.symm hnm]
      have hb2 : (e.1 == m) = false := by simp [h, Ne.symm hnm]
      simp [setEntry, lookupEntry, List.find?, h, hb, hb2]
    · have hb : (e.1 == n) = false := by simp [h]
      by_cases h2 : e.1 = m
      · have hb2 : (e.1 == m) = true := by simp [h2]
        simp only [setEntry, hb, if_false]
        simp [lookupEntry, List.find?, hb2]
      · have hb2 : (e.1 == m) = false := by simp [h2]
        simp only [setEntry, hb, if_false]
        simpa [lookupEntry, List.find?, hb2] using ih

theorem createBackup_frame (s : SysState) (e : Env) (fv tv : String) :
    (createBackup s e fv tv).1.binaryFile = s.binaryFile ∧
    (createBackup s e fv tv).1.dataDir = s.dataDir ∧
    (createBackup s e fv tv).1.manifestFile = s.manifestFile ∧
    (createBackup s e fv tv).1.serviceRunning = s.serviceRunning := by
  unfold createBackup
  cases hl : lookupEntry (s.backups.getD []) ("v" ++ fv) with
  | none =>
    simp only [hl]
    repeat' split
    all_goals simp
  | some nd =>
    cases nd
    all_goals simp only [hl]
    all_goals repeat' split
    all_goals simp

theorem installNewVersion_frame (s : SysState) (e : Env) (b : Bundle) :
    (installNewVersion s e b).1.dataDir = s.dataDir ∧
    (installNewVersion s e b).1.backups = s.backups ∧
    (installNewVersion s e b).1.serviceRunning = s.serviceRunning := by
  unfold installNewVersion
  repeat' split
  all_goals simp

theorem performRollback_backups (s : SysState) (e : Env) (name : String) :
    (performRollback s e name).1.backups = s.backups := by
  unfold performRollback
  cases hb : (readBackupDir s name).binaryFile
  all_goals cases hd : (readBackupDir s name).dataDir
  all_goals cases hm : (readBackupDir s name).manifestFile
  all_goals simp only [hb, hd, hm]
  all_goals repeat' split
  all_goals simp

theorem restoreFromBackup_backups (s : SysState) (e : Env) (name : String) :
    (restoreFromBackup s e name).1.backups = s.backups := by
  unfold restoreFromBackup
  cases hb : (readBackupDir s name).binaryFile
  all_goals cases hd : (readBackupDir s name).dataDir
  all_goals cases hm : (readBackupDir s name).manifestFile
  all_goals simp only [hb, hd, hm]
  all_goals repeat' split
  all_goals simp

theorem pruneBackups_frame (s : SysState) (e : Env) :
    (pruneBackups s e).binaryFile = s.binaryFile ∧
    (pruneBackups s e).dataDir = s.dataDir ∧
    (pruneBackups s e).manifestFile = s.manifestFile ∧
    (pruneBackups s e).serviceRunning = s.serviceRunning := by
  unfold pruneBackups
  repeat' split
  all_goals simp

theorem validateBundle_none (b : Bundle) (h : validateBundle b = none) :
    b.backend.isSome = true ∧ b.convexDb.isSome = true ∧
    b.manifestFile.isSome = true ∧ b.credentials.isSome = true := by
  unfold validateBundle at h
  repeat' split at h
  all_goals simp_all [Option.isNone_iff_eq_none, Option.isSome_iff_ne_none]

theorem upgradeGate_go (s : SysState) (e : Env) (bundle : Bundle) (force : Bool)
    (cur newM : Manifest) (h : upgradeGate s e bundle force = .go cur newM) :
    e.isRoot = true ∧ e.hasSystemd = true ∧
    readManifest s.manifestFile = some cur ∧
    validateBundle bundle = none ∧
    readManifest bundle.manifestFile = some newM := by
  unfold upgradeGate at h
  repeat' split at h
  all_goals simp_all

theorem createBackup_success
    (s : SysState) (e : Env) (fv tv : String) (bin dat : Blob) (mf : FileData)
    (hb : s.binaryFile = some bin) (hd : s.dataDir = some dat)
    (hm : s.manifestFile = some mf)
    (h1 : e.mkBackupDirOk = true) (h2 : e.backupBinaryOk = true)
    (h3 : e.backupDataOk = true) (h4 : e.backupManifestOk = true)
    (h5 : e.backupMetaOk = true)
    (hprior : ∀ fd, lookupEntry (s.backups.getD []) ("v" ++ fv) ≠ some (.file fd)) :
    createBackup s e fv tv =
      ({ s with backups := some (setEntry (s.backups.getD []) ("v" ++ fv)
          (.dir ⟨some bin, some dat, some mf,
                 some (.metaJson ⟨fv, .rfc3339 e.now, "upgrade", fv, tv⟩)⟩)) }, none) := by
  unfold createBackup
  cases hl : lookupEntry (s.backups.getD []) ("v" ++ fv) with
  | none => simp [hl, h1, h2, h3, h4, h5, hb, hd, hm]
  | some nd =>
    cases nd with
    | file c => exact absurd hl (hprior c)
    | dir d => simp [hl, h1, h2, h3, h4, h5, hb, hd, hm]

theorem installNewVersion_success
    (s : SysState) (e : Env) (bundle : Bundle) (nb : Blob) (nmf : FileData)
    (hnb : bundle.backend = some nb) (hmf : bundle.manifestFile = some nmf)
    (h1 : e.swapBinaryOk = true) (h2 : e.swapChmodOk = true)
    (h3 : e.swapManifestOk = true) :
    installNewVersion s e bundle =
      ({ s with binaryFile := some nb, manifestFile := some nmf }, none) := by
  simp [installNewVersion, hnb, hmf, h1, h2, h3]

theorem performRollback_success
    (s : SysState) (e : Env) (name : String) (bin dat : Blob) (mf : FileData)
    (hb : (readBackupDir s name).binaryFile = some bin)
    (hd : (readBackupDir s name).dataDir = some dat)
    (hm : (readBackupDir s name).manifestFile = some mf)
    (h1 : e.rbBinaryOk = true) (h2 : e.rbChmodOk = true)
    (h3 : e.rbRemoveDataOk = true) (h4 : e.rbDataOk = true)
    (h5 : e.rbManifestOk = true) (h6 : e.rbStartOk = true) :
    performRollback s e name =
      ({ s with binaryFile := some bin, dataDir := some dat,
                manifestFile := some mf, serviceRunning := true }, none) := by
  simp [performRollback, hb, hd, hm, h1, h2, h3, h4, h5, h6]

theorem readBackupDir_setEntry (s : SysState) (root : Entries) (name : String)
    (d : BackupDir) (h : s.backups = some (setEntry root name (.dir d))) :
    readBackupDir s name = d := by
  simp [readBackupDir, h, lookupEntry_setEntry_self]

/-- C2: for every installed state whose manifest parses to current
version V and every valid bundle whose manifest version equals V,
upgrade invoked without force fails with the already-at-version error
and performs no side effects: the returned state is the input state and
no external action is attempted. Invoking it twice in a row returns the
identical result, so state is unchanged and the same error is reported
both times. -/
theorem upgrade_same_version_safe_noop
    (s : SysState) (e : Env) (bundle : Bundle) (cur newM : Manifest)
    (hroot : e.isRoot = true) (hsd : e.hasSystemd = true)
    (hcur : readManifest s.manifestFile = some cur)
    (hval : validateBundle bundle = none)
    (hnew : readManifest bundle.manifestFile = some newM)
    (hv : newM.version = cur.version) :
    runUpgrade s e bundle false =
      ⟨s, [], some ("already at version " ++ cur.version ++
                    ". Use --force to upgrade anyway")⟩ ∧
    runUpgrade (runUpgrade s e bundle false).state e bundle false =
      runUpgrade s e bundle false := by
  have hgate : upgradeGate s e bundle false =
      .fail ("already at version " ++ cur.version ++ ". Use --force to upgrade anyway") := by
    simp [upgradeGate, hroot, hsd, hcur, hval, hnew, hv]
  have h1 : runUpgrade s e bundle false =
      ⟨s, [], some ("already at version " ++ cur.version ++
                    ". Use --force to upgrade anyway")⟩ := by
    simp [runUpgrade, hgate]
  refine ⟨h1, ?_⟩
  rw [h1]
  exact h1

/-- Witness for upgrade_same_version_safe_noop at the concrete installed
state sInst and the same-version bundle bundleSame. -/
theorem upgrade_same_version_safe_noop_witness :
    runUpgrade sInst Env.allOk bundleSame false =
      ⟨sInst, [], some ("already at version " ++ mCur.version ++
                        ". Use --force to upgrade anyway")⟩ :=
  (upgrade_same_version_safe_noop sInst Env.allOk bundleSame mCur mCur
    rfl rfl rfl rfl rfl rfl).1

/-- C6: the swap step of upgrade replaces only the executable and the
manifest: for every state, environment and bundle it leaves the data
directory, the backups root and the service state unchanged, on success
it writes exactly the bundle binary and bundle manifest, and a fully
successful upgrade run leaves the data directory equal to its
pre-upgrade content. -/
theorem swap_preserves_data_store (s : SysState) (e : Env) (b : Bundle) :
    (installNewVersion s e b).1.dataDir = s.dataDir ∧
    (installNewVersion s e b).1.backups = s.backups ∧
    (installNewVersion s e b).1.serviceRunning = s.serviceRunning ∧
    ((installNewVersion s e b).2 = none →
       ∃ nb nmf, b.backend = some nb ∧ b.manifestFile = some nmf ∧
         (installNewVersion s e b).1 =
           { s with binaryFile := some nb, manifestFile := some nmf }) ∧
    (∀ force, (runUpgrade s e b force).err = none →
       (runUpgrade s e b force).state.dataDir = s.dataDir) := by
  obtain ⟨hf1, hf2, hf3⟩ := installNewVersion_frame s e b
  refine ⟨hf1, hf2, hf3, ?_, ?_⟩
  · intro hok
    unfold installNewVersion at hok ⊢
    repeat' split at hok
    all_goals simp_all
  · intro force
    unfold runUpgrade
    simp only []
    repeat' split
    all_goals intro herr
    all_goals simp at herr
    rename_i x1 cur newM hgate x2 s1 hcb hstop x3 s3 hin hstart hhealth
    have h1 : s1.dataDir = s.dataDir := by
      have hfr := (createBackup_frame s e cur.version newM.version).2.1
      rw [hcb] at hfr
      exact hfr
    have h3 : s3.dataDir = s1.dataDir := by
      have hfr := (installNewVersion_frame { s1 with serviceRunning := false } e b).1
      rw [hin] at hfr
      exact hfr
    have hp := (pruneBackups_frame { s3 with serviceRunning := true } e).2.1
    simp only [hp]
    simp [h3, h1]

/-- Witness for swap_preserves_data_store: on the concrete installed
state and new bundle, the swap leaves the data directory untouched and
a fully successful upgrade preserves it as well. -/
theorem swap_preserves_data_store_witness :
    (installNewVersion sInst Env.allOk bundleNew).1.dataDir = sInst.dataDir ∧
    (runUpgrade sInst Env.allOk bundleNew false).state.dataDir = sInst.dataDir := by
  have h := swap_preserves_data_store sInst Env.allOk bundleNew
  exact ⟨h.1, h.2.2.2.2 false rfl⟩

/-- Characterization of the waitForHealth poll loop: starting at
elapsed time t with the given number of whole intervals remaining, the
loop reports healthy exactly when some probe, taken every
pollIntervalSec seconds, succeeds before the budget runs out. -/
theorem waitLoop_iff (healthAt : Nat → Bool) (fuel t : Nat) :
    waitLoop healthAt t fuel = true ↔
      ∃ i, i < fuel ∧ healthAt (t + i * pollIntervalSec) = true := by
  induction fuel generalizing t with
  | zero => simp [waitLoop]
  | succ n ih =>
    unfold waitLoop
    cases h : healthAt t with
    | true =>
      simp [h]
      exact ⟨0, Nat.succ_pos n, by simpa [pollIntervalSec] using h⟩
    | false =>
      rw [if_neg (by simp [h])]
      rw [ih]
      constructor
      · rintro ⟨i, hi, hh⟩
        refine ⟨i + 1, Nat.succ_lt_succ hi, ?_⟩
        have harith : t + (i + 1) * pollIntervalSec =
            t + pollIntervalSec + i * pollIntervalSec := by ring
        rw [harith]
        exact hh
      · rintro ⟨i, hi, hh⟩
        cases i with
        | zero =>
          exfalso
          have hcon : healthAt t = true := by simpa using hh
          rw [h] at hcon
          exact Bool.noConfusion hcon
        | succ j =>
          refine ⟨j, Nat.lt_of_succ_lt_succ hi, ?_⟩
          have harith : t + pollIntervalSec + j * pollIntervalSec =
              t + (j + 1) * pollIntervalSec := by ring
          rw [harith]
          exact hh

/-- C7 (amended): the health gate probes the readiness endpoint on a
fixed 1-second interval until a success response or the 30-second
deadline elapses, and each individual probe has its own 2-second
timeout; contrary to the claim, that per-probe timeout is longer than
the poll interval, not shorter. -/
theorem health_gate_poll_structure (healthAt : Nat → Bool) :
    pollIntervalSec = 1 ∧ probeTimeoutSec = 2 ∧ healthGateTimeoutSec = 30 ∧
    pollIntervalSec < probeTimeoutSec ∧
    (waitForHealth healthAt healthGateTimeoutSec = true ↔
       ∃ i, i < 30 ∧ healthAt i = true) := by
  refine ⟨rfl, rfl, rfl, by decide, ?_⟩
  unfold waitForHealth
  rw [waitLoop_iff]
  simp [pollIntervalSec, healthGateTimeoutSec]

/-- Counterexample to C7 as stated: the per-probe timeout (2 seconds)
is not shorter than the poll interval (1 second). -/
theorem health_gate_probe_timeout_not_shorter :
    ¬ probeTimeoutSec < pollIntervalSec := by decide

/-- Witness for health_gate_poll_structure: a backend healthy from
second 3 onward passes the gate, one never healthy within 30 seconds
does not. -/
theorem health_gate_poll_structure_witness :
    waitForHealth (fun t => 3 ≤ t) healthGateTimeoutSec = true ∧
    waitForHealth (fun _ => false) healthGateTimeoutSec = false := by
  constructor
  · exact (health_gate_poll_structure (fun t => decide (3 ≤ t))).2.2.2.2.mpr
      ⟨3, by decide, by decide⟩
  · have h := (health_gate_poll_structure (fun _ => false)).2.2.2.2
    by_contra hc
    simp at hc
    obtain ⟨i, _, hh⟩ := h.mp hc
    exact absurd hh (by simp)

/-- C8: with zero valid backups, rollback fails before any external
action: without a version argument it reports no backups found, with a
version argument naming an absent backup directory it reports
backup-not-found; in both cases the returned state is the input state,
the trace is empty, so nothing is mutated and the service is not
stopped. An unreadable backups root or a root whose entries all lack
valid metadata each make most-recent resolution fail. -/
theorem rollback_no_backup_no_mutation
    (s : SysState) (e : Env)
    (hroot : e.isRoot = true) (hsd : e.hasSystemd = true) :
    (findMostRecentBackup s = none →
       runRollback s e none = ⟨s, [], some "no backups found"⟩) ∧
    (∀ ver, s.backups.bind (fun root => lookupEntry root ("v" ++ ver)) = none →
       runRollback s e (some ver) =
         ⟨s, [], some ("backup for version " ++ ver ++ " not found")⟩) ∧
    (s.backups = none → findMostRecentBackup s = none) ∧
    (∀ root, s.backups = some root → collectFoundBackups root = [] →
       findMostRecentBackup s = none) := by
  refine ⟨?_, ?_, ?_, ?_⟩
  · intro hf
    simp [runRollback, hroot, hsd, hf]
  · intro ver hl
    simp [runRollback, hroot, hsd, hl]
  · intro hb
    simp [findMostRecentBackup, hb]
  · intro root hb hc
    simp [findMostRecentBackup, hb, hc, List.insertionSort]

/-- Witness for rollback_no_backup_no_mutation at the installed state
with an empty backups root. -/
theorem rollback_no_backup_no_mutation_witness :
    runRollback sInst Env.allOk none = ⟨sInst, [], some "no backups found"⟩ ∧
    runRollback sInst Env.allOk (some "0.9.0") =
      ⟨sInst, [], some ("backup for version " ++ "0.9.0" ++ " not found")⟩ := by
  have h := rollback_no_backup_no_mutation sInst Env.allOk rfl rfl
  exact ⟨h.1 (h.2.2.2 [] rfl rfl), h.2.1 "0.9.0" rfl⟩

theorem pruneSelect_mem_valid (root : Entries) (retention : Nat) (d : PruneItem)
    (hd : d ∈ pruneSelect root retention) :
    ∃ en, en ∈ root ∧ en.1 = d.name ∧ backupTimestamp en.2 = some d.timestamp := by
  have hmem : d ∈ sortNewestFirst (collectBackups root) := List.mem_of_mem_drop hd
  have hmem2 : d ∈ collectBackups root :=
    (List.perm_insertionSort tsDescOrder (collectBackups root)).subset hmem
  rw [collectBackups, List.mem_filterMap] at hmem2
  obtain ⟨en, hen, hmap⟩ := hmem2
  rw [Option.map_eq_some'] at hmap
  obtain ⟨ts, hts, hmk⟩ := hmap
  refine ⟨en, hen, ?_, ?_⟩
  · rw [← hmk]
  · rw [hts, ← hmk]

/-- C10: retention pruning deletes only subdirectories carrying fully
valid metadata: every item selected for deletion stems from a directory
entry whose meta.json reads, unmarshals and has a parsable RFC3339
timestamp, and (with the unique directory names of a real filesystem)
every entry lacking such metadata survives pruning. -/
theorem prune_spares_invalid_backups :
    (∀ root retention d, d ∈ pruneSelect root retention →
       ∃ en, en ∈ root ∧ en.1 = d.name ∧ backupTimestamp en.2 = some d.timestamp) ∧
    (∀ s e root en, s.backups = some root → (root.map Prod.fst).Nodup →
       en ∈ root → backupTimestamp en.2 = none →
       en ∈ ((pruneBackups s e).backups.getD [])) := by
  refine ⟨pruneSelect_mem_valid, ?_⟩
  intro s e root en hb hnd hmem hinv
  unfold pruneBackups
  simp only [hb, Option.getD_some]
  rw [List.mem_filter]
  refine ⟨hmem, ?_⟩
  rw [Bool.not_eq_true', List.any_eq_false]
  intro d hd
  intro hc
  have hdn : d.name = en.1 := by simpa using hc
  obtain ⟨en', hen', hname, hts⟩ := pruneSelect_mem_valid root _ d hd
  have heq : en' = en := by
    apply List.inj_on_of_nodup_map hnd hen' hmem
    rw [hname, hdn]
  rw [heq] at hts
  rw [hinv] at hts
  exact Option.noConfusion hts

/-- Witness for prune_spares_invalid_backups on the root5 fixture: the
item named v2 at timestamp 20 is selected for deletion under retention
3 and stems from a valid entry, while the torn directory survives
pruning. -/
theorem prune_spares_invalid_backups_witness :
    (∃ en, en ∈ root5 ∧ en.1 = "v2" ∧ backupTimestamp en.2 = some 20) ∧
    ("torn", FsNode.dir ⟨some "b", none, none, none⟩) ∈
      ((pruneBackups sRoot5 Env.allOk).backups.getD []) := by
  constructor
  · have h := prune_spares_invalid_backups.1 root5 3 ⟨"v2", 20⟩ (by decide)
    simpa using h
  · exact prune_spares_invalid_backups.2 sRoot5 Env.allOk root5
      ("torn", FsNode.dir ⟨some "b", none, none, none⟩) rfl (by decide)
      (by decide) rfl

theorem collectBackups_filter (root : Entries) (p : String × FsNode → Bool)
    (q : String → Bool) (hp : ∀ en, p en = q en.1) :
    collectBackups (root.filter p) =
      (collectBackups root).filter (fun it => q it.name) := by
  induction root with
  | nil => rfl
  | cons en rest ih =>
    have hpe := hp en
    cases hq : q en.1 with
    | true =>
      rw [hq] at hpe
      cases hbt : backupTimestamp en.2 with
      | none => simpa [collectBackups, List.filter_cons, List.filterMap_cons, hpe, hbt]
          using ih
      | some ts => simpa [collectBackups, List.filter_cons, List.filterMap_cons, hpe, hbt, hq]
          using ih
    | false =>
      rw [hq] at hpe
      cases hbt : backupTimestamp en.2 with
      | none => simpa [collectBackups, List.filter_cons, List.filterMap_cons, hpe, hbt]
          using ih
      | some ts => simpa [collectBackups, List.filter_cons, List.filterMap_cons, hpe, hbt, hq]
          using ih

theorem pruneBackups_length_le (s : SysState) (e : Env) (root : Entries)
    (hb : s.backups = some root) :
    (collectBackups (((pruneBackups s e).backups).getD [])).length ≤
      retentionCount e.retentionEnv := by
  unfold pruneBackups
  simp only [hb, Option.getD_some]
  rw [collectBackups_filter root _
    (fun n => !((pruneSelect root (retentionCount e.retentionEnv)).any
      (fun d => d.name == n))) (fun en => rfl)]
  have hperm : (collectBackups root).Perm (sortNewestFirst (collectBackups root)) :=
    (List.perm_insertionSort tsDescOrder (collectBackups root)).symm
  set q : PruneItem → Bool :=
    fun it => !((pruneSelect root (retentionCount e.retentionEnv)).any
      (fun d => d.name == it.name)) with hqdef
  rw [(hperm.filter q).length_eq]
  have hsplit : sortNewestFirst (collectBackups root) =
      (sortNewestFirst (collectBackups root)).take (retentionCount e.retentionEnv) ++
      (sortNewestFirst (collectBackups root)).drop (retentionCount e.retentionEnv) :=
    (List.take_append_drop _ _).symm
  rw [hsplit, List.filter_append]
  have hnil : ((sortNewestFirst (collectBackups root)).drop
      (retentionCount e.retentionEnv)).filter q = [] := by
    rw [List.filter_eq_nil_iff]
    intro d hd
    have hany : (pruneSelect root (retentionCount e.retentionEnv)).any
        (fun x => x.name == d.name) = true :=
      List.any_eq_true.mpr ⟨d, hd, by simp⟩
    simp [hqdef, hany]
  rw [hnil, List.append_nil]
  calc (((sortNewestFirst (collectBackups root)).take
          (retentionCount e.retentionEnv)).filter q).length
      ≤ ((sortNewestFirst (collectBackups root)).take
          (retentionCount e.retentionEnv)).length := List.length_filter_le _ _
    _ ≤ retentionCount e.retentionEnv := List.length_take_le _ _

theorem sortNewestFirst_take_drop (items : List PruneItem) (k : Nat) :
    ∀ x ∈ (sortNewestFirst items).take k, ∀ y ∈ (sortNewestFirst items).drop k,
      y.timestamp ≤ x.timestamp := by
  have hp : List.Pairwise tsDescOrder (sortNewestFirst items) :=
    List.sorted_insertionSort tsDescOrder items
  rw [← List.take_append_drop k (sortNewestFirst items)] at hp
  intro x hx y hy
  exact (List.pairwise_append.mp hp).2.2 x hx y hy

/-- C3: pruning sorts the valid backups newest-first by metadata
timestamp and deletes exactly those beyond index retentionCount (the
pruneSelect set), so at most retentionCount valid backups remain and
every retained backup is at least as recent as every deleted one;
retentionCount defaults to 3, with empty, non-positive or unparsable
environment overrides ignored in favor of the default; and within
upgrade, the prune action runs exactly on the successful path, after
the health gate, never on a failure path. -/
theorem backup_retention_policy :
    (retentionCount none = 3 ∧ retentionCount (some "") = 3 ∧
     retentionCount (some "0") = 3 ∧ retentionCount (some "-2") = 3 ∧
     retentionCount (some "abc") = 3 ∧ retentionCount (some "7") = 7) ∧
    (∀ s e root, s.backups = some root →
       (collectBackups (((pruneBackups s e).backups).getD [])).length ≤
         retentionCount e.retentionEnv) ∧
    (∀ root retention x, x ∈ (sortNewestFirst (collectBackups root)).take retention →
       ∀ y, y ∈ pruneSelect root retention → y.timestamp ≤ x.timestamp) ∧
    (∀ s e bundle force,
       Action.prune ∈ (runUpgrade s e bundle force).trace ↔
         (runUpgrade s e bundle force).err = none) := by
  refine ⟨⟨rfl, rfl, rfl, rfl, rfl, rfl⟩, pruneBackups_length_le, ?_, ?_⟩
  · intro root retention x hx y hy
    exact sortNewestFirst_take_drop (collectBackups root) retention x hx y hy
  · intro s e bundle force
    unfold runUpgrade
    simp only []
    repeat' split
    all_goals simp

/-- Witness for backup_retention_policy on the root5 fixture: after a
prune with the default retention at most three valid backups remain,
the deleted item v2 is no newer than the retained item v3, and on the
concrete successful upgrade the prune action is in the trace. -/
theorem backup_retention_policy_witness :
    (collectBackups (((pruneBackups sRoot5 Env.allOk).backups).getD [])).length ≤
      retentionCount Env.allOk.retentionEnv ∧
    (20 : Nat) ≤ 30 ∧
    Action.prune ∈ (runUpgrade sInst Env.allOk bundleNew false).trace := by
  have h := backup_retention_policy
  refine ⟨h.2.1 sRoot5 Env.allOk root5 rfl, ?_, ?_⟩
  · exact h.2.2.1 root5 3 ⟨"v3", 30⟩ (by decide) ⟨"v2", 20⟩ (by decide)
  · exact (h.2.2.2 sInst Env.allOk bundleNew false).mpr rfl

theorem rollbackFrom_trace_mem (s : SysState) (e : Env) (name : String) :
    Action.stopService ∈ (rollbackFrom s e name).trace ∧
    Action.restore ∈ (rollbackFrom s e name).trace := by
  unfold rollbackFrom
  simp only []
  repeat' split
  all_goals simp

/-- C5 (amended): listing and most-recent resolution validate backup
metadata — every listed row stems from a directory entry whose
meta.json reads and unmarshals, and every resolved most-recent backup
from one whose timestamp also parses, so directories lacking those are
skipped — but explicit-version resolution checks only that the path
exists: whenever an entry named v plus the requested version is
present, even a directory missing all four members, rollback proceeds
to stop the service and use it as a restore source. -/
theorem backup_readers_validation :
    (∀ s row, row ∈ runListBackups s →
       ∃ root, s.backups = some root ∧
       ∃ en, en ∈ root ∧ ∃ d, en.2 = .dir d ∧ ∃ f, d.metaFile = some f ∧
         ∃ m, unmarshalMeta f = some m ∧
           row = ⟨m.version, m.timestamp, m.reason⟩) ∧
    (∀ s fb, findMostRecentBackup s = some fb →
       ∃ root, s.backups = some root ∧
       ∃ en, en ∈ root ∧ en.1 = fb.name ∧
         backupTimestamp en.2 = some fb.timestamp) ∧
    (∀ s e ver node, e.isRoot = true → e.hasSystemd = true →
       s.backups.bind (fun root => lookupEntry root ("v" ++ ver)) = some node →
       Action.stopService ∈ (runRollback s e (some ver)).trace ∧
       Action.restore ∈ (runRollback s e (some ver)).trace) := by
  refine ⟨?_, ?_, ?_⟩
  · intro s row hrow
    unfold runListBackups at hrow
    cases hb : s.backups with
    | none => rw [hb] at hrow; simp at hrow
    | some root =>
      rw [hb] at hrow
      refine ⟨root, rfl, ?_⟩
      have hrow2 : row ∈ collectListRows root :=
        (List.perm_insertionSort rowDescOrder (collectListRows root)).subset hrow
      rw [collectListRows, List.mem_filterMap] at hrow2
      obtain ⟨en, hen, hmk⟩ := hrow2
      refine ⟨en, hen, ?_⟩
      cases hnode : en.2 with
      | file c => simp [hnode] at hmk
      | dir d =>
        cases hmf : d.metaFile with
        | none => simp [hnode, hmf] at hmk
        | some f =>
          simp only [hnode, hmf, Option.map_eq_some'] at hmk
          obtain ⟨m, hm, hmkrow⟩ := hmk
          exact ⟨d, rfl, f, hmf, m, hm, hmkrow.symm⟩
  · intro s fb hfb
    unfold findMostRecentBackup at hfb
    cases hb : s.backups with
    | none => simp [hb] at hfb
    | some root =>
      rw [hb] at hfb
      refine ⟨root, rfl, ?_⟩
      have hfb2 : (match List.insertionSort fbDescOrder (collectFoundBackups root) with
          | [] => none
          | x :: _ => some x) = some fb := hfb
      have hmem : fb ∈ List.insertionSort fbDescOrder (collectFoundBackups root) := by
        cases hsort : List.insertionSort fbDescOrder (collectFoundBackups root) with
        | nil => rw [hsort] at hfb2; simp at hfb2
        | cons x xs =>
          rw [hsort] at hfb2
          simp only [Option.some.injEq] at hfb2
          rw [← hfb2]
          exact List.mem_cons_self x xs
      have hmem2 : fb ∈ collectFoundBackups root :=
        (List.perm_insertionSort fbDescOrder (collectFoundBackups root)).subset hmem
      rw [collectFoundBackups, List.mem_filterMap] at hmem2
      obtain ⟨en, hen, hmk⟩ := hmem2
      refine ⟨en, hen, ?_⟩
      cases hnode : en.2 with
      | file c => simp [hnode] at hmk
      | dir d =>
        cases hmf : d.metaFile with
        | none => simp [hnode, hmf] at hmk
        | some f =>
          cases hum : unmarshalMeta f with
          | none => simp [hnode, hmf, hum] at hmk
          | some m =>
            simp only [hnode, hmf, hum, Option.map_eq_some'] at hmk
            obtain ⟨ts, hts, hmkfb⟩ := hmk
            subst hmkfb
            exact ⟨rfl, by simp [backupTimestamp, hnode, hmf, hum, hts]⟩
  · intro s e ver node hroot hsd hl
    unfold runRollback
    simp only [hroot, hsd, Bool.not_true, Bool.false_eq_true, if_false, hl]
    exact ⟨(rollbackFrom_trace_mem s e ("v" ++ ver)).1,
           (rollbackFrom_trace_mem s e ("v" ++ ver)).2⟩

/-- Counterexample to C5 as stated: a backup directory lacking all four
members is not treated as absent by explicit-version resolution —
rollback stops the service (mutating service state) and attempts a
restore from the torn directory, failing only once the member copy
fails. -/
theorem rollback_uses_torn_backup :
    (runRollback sTorn Env.allOk (some "1.0.0")).err =
      some "failed to restore from backup: failed to restore binary" ∧
    Action.restore ∈ (runRollback sTorn Env.allOk (some "1.0.0")).trace ∧
    (runRollback sTorn Env.allOk (some "1.0.0")).state.serviceRunning = false := by
  exact ⟨rfl, by decide, rfl⟩

/-- Witness for backup_readers_validation: most-recent resolution on
the root5 fixture returns the valid v5 backup, and explicit-version
rollback on a state holding a fully-written v1.0.0 backup proceeds to
stop and restore. -/
theorem backup_readers_validation_witness :
    (∃ root, sRoot5.backups = some root ∧
       ∃ en, en ∈ root ∧ en.1 = "v5" ∧ backupTimestamp en.2 = some 50) ∧
    Action.restore ∈ (runRollback sWithBackup Env.allOk (some "1.0.0")).trace := by
  constructor
  · have h := backup_readers_validation.2.1 sRoot5 ⟨"v5", "5", 50⟩ rfl
    simpa using h
  · exact (backup_readers_validation.2.2 sWithBackup Env.allOk "1.0.0"
      (.dir oldBackup) rfl rfl rfl).2

/-- C9 (amended): install and reset derive installed-ness from mere
presence of the manifest file, but status and the upgrade gate
additionally require it to unmarshal: with a present but unparsable
manifest they report or treat the host as not installed. All the
derivations agree whenever the manifest file is absent or parsable. -/
theorem installed_state_derivation :
    (∀ s, (checkNotInstalled s).isSome = manifestFileExists s) ∧
    (∀ s, (resetInstalledGate s).isSome = !(manifestFileExists s)) ∧
    (∀ s, statusInstalled s = true → manifestFileExists s = true) ∧
    (∀ s, s.manifestFile = none → statusInstalled s = manifestFileExists s) ∧
    (∀ s m, s.manifestFile = some (.manifestJson m) →
       statusInstalled s = manifestFileExists s) ∧
    (∀ s e bundle force, e.isRoot = true → e.hasSystemd = true →
       readManifest s.manifestFile = none →
       runUpgrade s e bundle force =
         ⟨s, [], some "Convex backend is not installed. Use install first"⟩) := by
  refine ⟨?_, ?_, ?_, ?_, ?_, ?_⟩
  · intro s
    unfold checkNotInstalled manifestFileExists
    cases s.manifestFile <;> simp
  · intro s
    unfold resetInstalledGate manifestFileExists
    cases s.manifestFile <;> simp
  · intro s h
    unfold statusInstalled readManifest at h
    unfold manifestFileExists
    cases hm : s.manifestFile with
    | none => rw [hm] at h; simp at h
    | some f => simp
  · intro s h
    simp [statusInstalled, readManifest, manifestFileExists, h]
  · intro s m h
    simp [statusInstalled, readManifest, manifestFileExists, h, unmarshalManifest]
  · intro s e bundle force hroot hsd hrm
    have hgate : upgradeGate s e bundle force =
        .fail "Convex backend is not installed. Use install first" := by
      simp [upgradeGate, hroot, hsd, hrm]
    simp [runUpgrade, hgate]

/-- Counterexample to C9 as stated: on sCorrupt the manifest file
exists, yet status reports not installed and upgrade refuses as not
installed, while the install gate refuses as already installed —
the operations do not all agree with bare file presence. -/
theorem installed_not_presence_alone :
    manifestFileExists sCorrupt = true ∧
    statusInstalled sCorrupt = false ∧
    (checkNotInstalled sCorrupt).isSome = true ∧
    (runUpgrade sCorrupt Env.allOk bundleNew false).err =
      some "Convex backend is not installed. Use install first" :=
  ⟨rfl, rfl, rfl, rfl⟩

/-- Witness for installed_state_derivation at the corrupt-manifest and
cleanly installed fixtures. -/
theorem installed_state_derivation_witness :
    runUpgrade sCorrupt Env.allOk bundleNew false =
      ⟨sCorrupt, [], some "Convex backend is not installed. Use install first"⟩ ∧
    statusInstalled sInst = manifestFileExists sInst := by
  have h := installed_state_derivation
  exact ⟨h.2.2.2.2.2 sCorrupt Env.allOk bundleNew false rfl rfl rfl,
         h.2.2.2.2.1 sInst mCur rfl⟩

/-- C1 (amended): once the gate has passed, the backup has been fully
created and the service stop has succeeded, every failure of the
binary/manifest swap, of the service start or of the health gate
triggers the compensating performRollback (on the health path after a
best-effort stop), and when the compensating restore itself succeeds
the operation ends with an error reported, the pre-upgrade binary,
data and manifest restored from the just-created backup, and the
service started again. Failures of backup creation or of the service
stop step return directly without the compensating action — see the
counterexample upgrade_stop_failure_no_compensation. -/
theorem upgrade_compensates_post_stop_failures
    (s : SysState) (e : Env) (bundle : Bundle) (force : Bool) (cur newM : Manifest)
    (bin dat : Blob) (mf : FileData)
    (hgate : upgradeGate s e bundle force = .go cur newM)
    (hb : s.binaryFile = some bin) (hd : s.dataDir = some dat)
    (hm : s.manifestFile = some mf)
    (hbk1 : e.mkBackupDirOk = true) (hbk2 : e.backupBinaryOk = true)
    (hbk3 : e.backupDataOk = true) (hbk4 : e.backupManifestOk = true)
    (hbk5 : e.backupMetaOk = true)
    (hprior : ∀ fd, lookupEntry (s.backups.getD []) ("v" ++ cur.version) ≠
       some (.file fd))
    (hstop : e.stopOk = true)
    (hrb1 : e.rbBinaryOk = true) (hrb2 : e.rbChmodOk = true)
    (hrb3 : e.rbRemoveDataOk = true) (hrb4 : e.rbDataOk = true)
    (hrb5 : e.rbManifestOk = true) (hrb6 : e.rbStartOk = true)
    (hfail : e.swapBinaryOk = false ∨ e.swapChmodOk = false ∨
             e.swapManifestOk = false ∨ e.startOk = false ∨ e.healthOk = false) :
    (runUpgrade s e bundle force).err.isSome = true ∧
    Action.rollback ∈ (runUpgrade s e bundle force).trace ∧
    (runUpgrade s e bundle force).state.binaryFile = some bin ∧
    (runUpgrade s e bundle force).state.dataDir = some dat ∧
    (runUpgrade s e bundle force).state.manifestFile = some mf ∧
    (runUpgrade s e bundle force).state.serviceRunning = true := by
  obtain ⟨hroot, hsd, hcur, hval, hnew⟩ := upgradeGate_go s e bundle force cur newM hgate
  obtain ⟨hbe, hbdb, hbm, hbc⟩ := validateBundle_none bundle hval
  obtain ⟨nb, hnb⟩ := Option.isSome_iff_exists.mp hbe
  have hnmf : ∃ nmf, bundle.manifestFile = some nmf := by
    cases hx : bundle.manifestFile with
    | none => rw [hx] at hnew; simp [readManifest] at hnew
    | some f => exact ⟨f, rfl⟩
  obtain ⟨nmf, hnmfe⟩ := hnmf
  have hcb := createBackup_success s e cur.version newM.version bin dat mf
    hb hd hm hbk1 hbk2 hbk3 hbk4 hbk5 hprior
  unfold runUpgrade
  rw [hgate]
  simp only []
  rw [hcb]
  simp only [hstop, Bool.not_true, Bool.false_eq_true, if_false]
  cases hsb : e.swapBinaryOk <;> cases hsc : e.swapChmodOk <;>
    cases hsm : e.swapManifestOk <;> cases hst : e.startOk <;>
    cases hhl : e.healthOk <;> cases hfs : e.failStopOk <;>
    simp_all [installNewVersion, performRollback, readBackupDir,
      lookupEntry_setEntry_self]

/-- Counterexample to C1 as stated: the service stop step lies between
backup creation and the health gate, yet its failure does not trigger
the compensating action — runUpgrade returns the stop error directly
and no rollback action appears in the trace. -/
theorem upgrade_stop_failure_no_compensation :
    (runUpgrade sInst envStopFail bundleNew false).err =
      some "failed to stop service" ∧
    Action.rollback ∉ (runUpgrade sInst envStopFail bundleNew false).trace := by
  exact ⟨rfl, by decide⟩

/-- Witness for upgrade_compensates_post_stop_failures: a health-gate
failure on the concrete installed state ends with an error, a rollback
action in the trace, and the pre-upgrade binary, data, manifest and
running service restored. -/
theorem upgrade_compensates_post_stop_failures_witness :
    (runUpgrade sInst envHealthFail bundleNew false).err.isSome = true ∧
    Action.rollback ∈ (runUpgrade sInst envHealthFail bundleNew false).trace ∧
    (runUpgrade sInst envHealthFail bundleNew false).state.binaryFile = some "binA" ∧
    (runUpgrade sInst envHealthFail bundleNew false).state.dataDir = some "dataA" ∧
    (runUpgrade sInst envHealthFail bundleNew false).state.manifestFile =
      some (.manifestJson mCur) ∧
    (runUpgrade sInst envHealthFail bundleNew false).state.serviceRunning = true :=
  upgrade_compensates_post_stop_failures sInst envHealthFail bundleNew false mCur mNew
    "binA" "dataA" (.manifestJson mCur) rfl rfl rfl rfl rfl rfl rfl rfl rfl
    (fun fd h => by simp [lookupEntry, List.find?] at h) rfl rfl rfl rfl rfl rfl rfl
    (Or.inr (Or.inr (Or.inr (Or.inr rfl))))

theorem createBackup_lookup_ne (s : SysState) (e : Env) (fv tv n : String)
    (hn : n ≠ "v" ++ fv) :
    lookupEntry (((createBackup s e fv tv).1.backups).getD []) n =
      lookupEntry ((s.backups).getD []) n := by
  unfold createBackup
  cases hl : lookupEntry (s.backups.getD []) ("v" ++ fv) with
  | none =>
    simp only [hl]
    repeat' split
    all_goals simp [lookupEntry_setEntry_ne _ _ _ _ hn]
  | some nd =>
    cases nd
    all_goals simp only [hl]
    all_goals repeat' split
    all_goals simp [lookupEntry_setEntry_ne _ _ _ _ hn]

theorem lookupEntry_filter_name (root : Entries) (p : String × FsNode → Bool)
    (q : String → Bool) (hp : ∀ en, p en = q en.1) (n : String) :
    lookupEntry (root.filter p) n = if q n then lookupEntry root n else none := by
  induction root with
  | nil => cases hq : q n <;> simp [lookupEntry, hq]
  | cons en rest ih =>
    have hpe := hp en
    by_cases hen : en.1 = n
    · cases hq : q n with
      | true =>
        have hpt : p en = true := by rw [hpe, hen, hq]
        have hbeq : (en.1 == n) = true := by simp [hen]
        simp [List.filter_cons, hpt, lookupEntry, List.find?, hbeq, hq]
      | false =>
        have hpf : p en = false := by rw [hpe, hen, hq]
        simp [List.filter_cons, hpf, ih, hq]
    · have hbeq : (en.1 == n) = false := by simp [hen]
      cases hpb : p en with
      | true =>
        have hlhs : lookupEntry (en :: rest.filter p) n = lookupEntry (rest.filter p) n := by
          simp [lookupEntry, List.find?, hbeq]
        have hrhs : lookupEntry (en :: rest) n = lookupEntry rest n := by
          simp [lookupEntry, List.find?, hbeq]
        simp only [List.filter_cons, hpb, if_true]
        rw [hlhs, ih]
        cases hq : q n <;> simp [hrhs]
      | false =>
        have hrhs : lookupEntry (en :: rest) n = lookupEntry rest n := by
          simp [lookupEntry, List.find?, hbeq]
        simp only [List.filter_cons, hpb, Bool.false_eq_true, if_false]
        rw [ih]
        cases hq : q n <;> simp [hrhs]

/-- C4 (amended): an upgrade writes only the backup directory named
after the current version, and other backup directories are deleted
only by pruning on the success path: for every name other than v plus
the current version, the backups-root entry after runUpgrade either
equals the entry before the run, or the run succeeded and pruning
removed it; uninstall removes the whole backups root. However, backup
directories are keyed by the source version alone, so a later upgrade
whose current version matches an existing backup overwrites that
backup in place — see upgrade_overwrites_existing_backup. -/
theorem upgrade_writes_only_own_backup
    (s : SysState) (e : Env) (bundle : Bundle) (force : Bool) (n : String)
    (hn : ∀ cur, readManifest s.manifestFile = some cur → n ≠ "v" ++ cur.version) :
    (lookupEntry (((runUpgrade s e bundle force).state.backups).getD []) n =
       lookupEntry ((s.backups).getD []) n ∨
     ((runUpgrade s e bundle force).err = none ∧
      lookupEntry (((runUpgrade s e bundle force).state.backups).getD []) n = none)) ∧
    (uninstallTeardown s e).backups = none := by
  constructor
  · unfold runUpgrade
    cases hgate : upgradeGate s e bundle force with
    | fail msg => left; rfl
    | go cur newM =>
      obtain ⟨hroot, hsd, hcur, hval, hnew⟩ :=
        upgradeGate_go s e bundle force cur newM hgate
      have hnn : n ≠ "v" ++ cur.version := hn cur hcur
      simp only []
      cases hcb : createBackup s e cur.version newM.version with
      | mk s1 r1 =>
        have hpres1 : lookupEntry ((s1.backups).getD []) n =
            lookupEntry ((s.backups).getD []) n := by
          have hh := createBackup_lookup_ne s e cur.version newM.version n hnn
          rw [hcb] at hh
          exact hh
        cases r1 with
        | some msg => left; exact hpres1
        | none =>
          simp only []
          cases hstop : e.stopOk with
          | false => left; exact hpres1
          | true =>
            simp only [Bool.not_true, Bool.false_eq_true, if_false]
            cases hin : installNewVersion { s1 with serviceRunning := false } e bundle with
            | mk s3 r3 =>
              have hpres3 : lookupEntry ((s3.backups).getD []) n =
                  lookupEntry ((s.backups).getD []) n := by
                have hh := (installNewVersion_frame
                  { s1 with serviceRunning := false } e bundle).2.1
                rw [hin] at hh
                rw [hh]
                exact hpres1
              cases r3 with
              | some msg =>
                simp only []
                cases hpr : performRollback s3 e ("v" ++ cur.version) with
                | mk s4 r4 =>
                  have hpres4 : lookupEntry ((s4.backups).getD []) n =
                      lookupEntry ((s.backups).getD []) n := by
                    have hh := performRollback_backups s3 e ("v" ++ cur.version)
                    rw [hpr] at hh
                    rw [hh]
                    exact hpres3
                  cases r4 with
                  | some m2 => left; exact hpres4
                  | none => left; exact hpres4
              | none =>
                simp only []
                cases hstart : e.startOk with
                | false =>
                  cases hpr : performRollback s3 e ("v" ++ cur.version) with
                  | mk s4 r4 =>
                    have hpres4 : lookupEntry ((s4.backups).getD []) n =
                        lookupEntry ((s.backups).getD []) n := by
                      have hh := performRollback_backups s3 e ("v" ++ cur.version)
                      rw [hpr] at hh
                      rw [hh]
                      exact hpres3
                    cases r4 with
                    | some m2 => left; exact hpres4
                    | none => left; exact hpres4
                | true =>
                  simp only [Bool.not_true, Bool.false_eq_true, if_false]
                  cases hhl : e.healthOk with
                  | false =>
                    generalize hXdef : (if e.failStopOk = true then
                        { s3 with serviceRunning := false }
                      else { s3 with serviceRunning := true } : SysState) = X
                    have hXb : X.backups = s3.backups := by
                      rw [← hXdef]
                      cases e.failStopOk <;> rfl
                    cases hpr : performRollback X e ("v" ++ cur.version) with
                    | mk s6 r6 =>
                      have hpres6 : lookupEntry ((s6.backups).getD []) n =
                          lookupEntry ((s.backups).getD []) n := by
                        have hh := performRollback_backups X e ("v" ++ cur.version)
                        rw [hpr] at hh
                        rw [hh, hXb]
                        exact hpres3
                      cases r6 with
                      | some m2 => left; exact hpres6
                      | none => left; exact hpres6
                  | true =>
                    simp only [Bool.not_true, Bool.false_eq_true, if_false]
                    have hfin : lookupEntry (((pruneBackups
                          { s3 with serviceRunning := true } e).backups).getD []) n =
                        lookupEntry ((s.backups).getD []) n ∨
                        lookupEntry (((pruneBackups
                          { s3 with serviceRunning := true } e).backups).getD []) n = none := by
                      cases hbq : s3.backups with
                      | none =>
                        left
                        rw [← hpres3, hbq]
                        rfl
                      | some root3 =>
                        have hq := lookupEntry_filter_name root3
                          (fun en => !((pruneSelect root3 (retentionCount e.retentionEnv)).any
                            (fun d => d.name == en.1)))
                          (fun nm => !((pruneSelect root3 (retentionCount e.retentionEnv)).any
                            (fun d => d.name == nm)))
                          (fun en => rfl) n
                        have hr3 : lookupEntry root3 n =
                            lookupEntry ((s.backups).getD []) n := by
                          rw [← hpres3, hbq]
                          rfl
                        cases hqq : (!((pruneSelect root3 (retentionCount e.retentionEnv)).any
                            (fun d => d.name == n))) with
                        | true =>
                          left
                          show lookupEntry (root3.filter (fun en =>
                              !((pruneSelect root3 (retentionCount e.retentionEnv)).any
                                (fun d => d.name == en.1)))) n =
                            lookupEntry ((s.backups).getD []) n
                          rw [hq, hqq]
                          simpa using hr3
                        | false =>
                          right
                          show lookupEntry (root3.filter (fun en =>
                              !((pruneSelect root3 (retentionCount e.retentionEnv)).any
                                (fun d => d.name == en.1)))) n = none
                          rw [hq, hqq]
                          simp
                    rcases hfin with h | h
                    · left
                      exact h
                    · right
                      refine ⟨?_, h⟩
                      first
                        | rfl
                        | trivial
  · unfold uninstallTeardown
    split
    all_goals rfl

/-- Counterexample to C4 as stated: a forced upgrade from version
1.0.0 on a state already holding a fully-written backup directory
v1.0.0 succeeds and overwrites that directory in place — members and
metadata change — so an upgrade can mutate an existing backup. -/
theorem upgrade_overwrites_existing_backup :
    lookupEntry ((sWithBackup.backups).getD []) "v1.0.0" = some (.dir oldBackup) ∧
    (runUpgrade sWithBackup envNow99 bundleSame true).err = none ∧
    lookupEntry (((runUpgrade sWithBackup envNow99 bundleSame true).state.backups).getD [])
        "v1.0.0" =
      some (.dir ⟨some "binA", some "dataA", some (.manifestJson mCur),
        some (.metaJson ⟨"1.0.0", .rfc3339 99, "upgrade", "1.0.0", "1.0.0"⟩)⟩) ∧
    ¬ (FsNode.dir ⟨some "binA", some "dataA", some (.manifestJson mCur),
        some (.metaJson ⟨"1.0.0", .rfc3339 99, "upgrade", "1.0.0", "1.0.0"⟩)⟩ =
       FsNode.dir oldBackup) := by
  exact ⟨rfl, rfl, rfl, by decide⟩

/-- Witness for upgrade_writes_only_own_backup: on the concrete forced
upgrade, an unrelated directory name is preserved or pruned, and
uninstall removes the backups root. -/
theorem upgrade_writes_only_own_backup_witness :
    (lookupEntry (((runUpgrade sWithBackup envNow99 bundleSame true).state.backups).getD [])
        "other" =
       lookupEntry ((sWithBackup.backups).getD []) "other" ∨
     ((runUpgrade sWithBackup envNow99 bundleSame true).err = none ∧
      lookupEntry (((runUpgrade sWithBackup envNow99 bundleSame true).state.backups).getD [])
        "other" = none)) ∧
    (uninstallTeardown sWithBackup envNow99).backups = none := by
  apply upgrade_writes_only_own_backup
  intro cur hc
  have hcm : cur = mCur := by
    have h2 : readManifest sWithBackup.manifestFile = some mCur := rfl
    rw [h2] at hc
    exact (Option.some.inj hc).symm
  rw [hcm]
  decide

end ConvexOps
















